import Mathlib

/-!
Verification development for the `erasure` package (file `erasure.go`,
the variant whose `Decode` returns `(result, broken, err)`).

Byte buffers are modelled as `List Nat` (each entry one byte).  Machine
integers are modelled as `Nat`; the 32- and 64-bit big-endian codecs
truncate explicitly.  Go panics (out-of-range slice indexing) are
modelled by returning `none`; the `Option` layer of `Decode` and
`validate` is `none` exactly on the panicking executions.  Go `append`
reusing spare capacity of the destination slice is modelled explicitly:
`Decode` returns, besides the Go return values, the post-call contents
of the three caller buffers.
-/

namespace Erasure

/-- Model of `chcksum` in erasure.go: `adler32.Checksum`.  The adler32
state is a pair `(s1, s2)` starting at `(1, 0)`; every byte `c` updates
`s1 := (s1 + c) % 65521` and `s2 := (s2 + s1) % 65521`; the checksum is
`s2 * 2^16 + s1`. -/
def adlerStep (s : Nat × Nat) (c : Nat) : Nat × Nat :=
  ((s.1 + c) % 65521, (s.2 + (s.1 + c) % 65521) % 65521)

/-- Model of `chcksum` in erasure.go (see `adlerStep`). -/
def chcksum (data : List Nat) : Nat :=
  let st := data.foldl adlerStep (1, 0)
  st.2 * 65536 + st.1

/-- Model of `uint32b`: the four big-endian bytes of a 32-bit value
(written into `dst[0..3]` in Go; here returned as a list). -/
def uint32b (u : Nat) : List Nat :=
  [u / 16777216 % 256, u / 65536 % 256, u / 256 % 256, u % 256]

/-- Model of `buint32`: read a 32-bit big-endian value from the first
four bytes. -/
def buint32 (b : List Nat) : Nat :=
  b.getD 3 0 + b.getD 2 0 * 256 + b.getD 1 0 * 65536 + b.getD 0 0 * 16777216

/-- Model of `uint64b`: the eight big-endian bytes of a 64-bit value. -/
def uint64b (u : Nat) : List Nat :=
  [u / 72057594037927936 % 256, u / 281474976710656 % 256,
   u / 1099511627776 % 256, u / 4294967296 % 256,
   u / 16777216 % 256, u / 65536 % 256, u / 256 % 256, u % 256]

/-- Model of `buint64`: read a 64-bit big-endian value from the first
eight bytes. -/
def buint64 (b : List Nat) : Nat :=
  b.getD 7 0 + b.getD 6 0 * 256 + b.getD 5 0 * 65536 +
  b.getD 4 0 * 16777216 + b.getD 3 0 * 4294967296 +
  b.getD 2 0 * 1099511627776 + b.getD 1 0 * 281474976710656 +
  b.getD 0 0 * 72057594037927936

/-- Go slice expression `l[i:j]` (for the in-bounds executions `i ≤ j`
and `j` at most the capacity; every use below is guarded so that the
truncating behaviour of `take`/`drop` is never exercised). -/
def subslice (l : List Nat) (i j : Nat) : List Nat :=
  (l.take j).drop i

/-- Model of `xor(dst, blockA, blockB)`: writes `blockA[i] ^ blockB[i]`
into `dst[i]` for every index of `dst` (the word-at-a-time
implementation `fast64bitsXor` is byte-wise xor semantically).  Returns
the new contents of `dst`.  All call sites pass sources at least as
long as `dst`. -/
def xorBuf (dst a b : List Nat) : List Nat :=
  List.zipWith Nat.xor (a.take dst.length) (b.take dst.length)

/-- Overwrite `arr[i .. i + vals.length)` with `vals` (the in-place
write performed by Go `append` when the destination capacity
suffices).  All call sites are in bounds. -/
def writeAt (arr : List Nat) (i : Nat) (vals : List Nat) : List Nat :=
  arr.take i ++ vals ++ arr.drop (i + vals.length)

/-- Model of `validate(block)`.  Go reads `block[l-4:l]` (panics when
`l < 4`) and, on the matching-checksum path, `block[0]` and
`block[1:9]` (panics when `l < 9`).  On checksum mismatch Go returns
`0, 0, false`; on match it returns the order byte, the declared length
and `true`. -/
def validate (block : List Nat) : Option (Nat × Nat × Bool) :=
  if 4 ≤ block.length then
    if buint32 (subslice block (block.length - 4) block.length) ≠
        chcksum (subslice block 0 (block.length - 4)) then some (0, 0, false)
    else if 9 ≤ block.length then
      some (block.headD 0, buint64 (subslice block 1 9), true)
    else none
  else none

/-- `alen` in `Encode`: `uint64(len(data) / 2)`. -/
def alen (data : List Nat) : Nat := data.length / 2

/-- `blen` in `Encode`: starts as `alen` and is incremented when
`(len(data)/2) % 2 != 0` — note the source tests the parity of
`len(data)/2`, not of `len(data)`. -/
def blen (data : List Nat) : Nat :=
  if (data.length / 2) % 2 ≠ 0 then alen data + 1 else alen data

/-- `blocklen` in `Encode`: `blen + (1 + 8 + 4)`. -/
def blocklen (data : List Nat) : Nat := blen data + (1 + 8 + 4)

/-- Bytes `[0, blocklen-4)` of block `a` built by `Encode`: order byte
`1`, the 8 length bytes of `alen`, `data[:alen]`, and the zeroes the
`make` left in `[9+alen, blocklen-4)`. -/
def aBody (data : List Nat) : List Nat :=
  [1] ++ uint64b (alen data) ++ data.take (alen data) ++
    List.replicate (blen data - alen data) 0

/-- Block `a` of `Encode`: body plus the four checksum bytes. -/
def encA (data : List Nat) : List Nat :=
  aBody data ++ uint32b (chcksum (aBody data))

/-- The bytes `copy(b[9:9+blen], data[alen:])` actually writes: the
first `min blen (len data - alen)` bytes of the second half. -/
def bdat (data : List Nat) : List Nat :=
  (data.drop (alen data)).take (blen data)

/-- Bytes `[0, blocklen-4)` of block `b`: order byte `2`, the 8 length
bytes of `blen`, the copied bytes, and the zeroes left after them. -/
def bBody (data : List Nat) : List Nat :=
  [2] ++ uint64b (blen data) ++ bdat data ++
    List.replicate (blen data - (bdat data).length) 0

/-- Block `b` of `Encode`. -/
def encB (data : List Nat) : List Nat :=
  bBody data ++ uint32b (chcksum (bBody data))

/-- Bytes `[0, blocklen-4)` of block `x`:
`xor(x[:9+blen], a[:9+blen], b[:9+blen])` over the zeroed buffer. -/
def xBody (data : List Nat) : List Nat :=
  xorBuf (List.replicate (blocklen data - 4) 0) (aBody data) (bBody data)

/-- Block `x` of `Encode`. -/
def encX (data : List Nat) : List Nat :=
  xBody data ++ uint32b (chcksum (xBody data))

/-- Model of `Encode`.  The Go function also returns `err`, which is
always `nil` (there is no failing path), so it is omitted here. -/
def Encode (data : List Nat) : List Nat × List Nat × List Nat :=
  (encA data, encB data, encX data)

/-- The outcome `Decode` hands back to its caller: one of the four
`fmt.Errorf` sites, or a payload together with the `broken` return
value (`none` models a `nil` broken slice). -/
inductive DecOut where
  /-- the `blocks are of different sizes` error -/
  | sizeMismatch : DecOut
  /-- the `block A and B are bad` error -/
  | badAB : DecOut
  /-- the `block A and X are bad` error -/
  | badAX : DecOut
  /-- the `block B and X are bad` error -/
  | badBX : DecOut
  /-- a successful return `(result, broken, nil)` -/
  | done (payload : List Nat) (broken : Option (List Nat)) : DecOut
  deriving DecidableEq, Repr

/-- Result of a (non-panicking) `Decode` call: the returned outcome and
the post-call contents of the three caller buffers (Go `append` can
write into the buffer holding role A; see `Decode`). -/
structure DecRes where
  out : DecOut
  post1 : List Nat
  post2 : List Nat
  post3 : List Nat
  deriving DecidableEq, Repr

/-- The role variables of `Decode` (`blockA/agood/alen`, …) together
with the index of the input slot whose buffer was assigned to role A
(0 when none was): Go `append` mutates that slot. -/
structure Roles where
  blockA : List Nat
  agood : Bool
  ralen : Nat
  aSlot : Nat
  blockB : List Nat
  bgood : Bool
  rblen : Nat
  blockX : List Nat
  xgood : Bool
  deriving Repr

/-- One of the three `switch pos { ... }` statements of `Decode`:
`case 1/2/3` assign the corresponding role, every other value of `pos`
(including the `0` produced by a failed `validate`) assigns nothing. -/
def setRole (st : Roles) (slot : Nat) (blk : List Nat) (pos len : Nat)
    (good : Bool) : Roles :=
  if pos = 1 then
    { st with blockA := blk, agood := good, ralen := len, aSlot := slot }
  else if pos = 2 then { st with blockB := blk, bgood := good, rblen := len }
  else if pos = 3 then { st with blockX := blk, xgood := good }
  else st

/-- The in-place variant of `append(a, b...)` on the fast path:
`a = blockA[9:9+alen]` has capacity `len(blockA) - 9`, so when
`alen + blen` fits, Go writes the B payload bytes into the role-A
buffer right after the A payload; otherwise a fresh array is used and
the buffer is untouched. -/
def fastMut (st : Roles) : List Nat :=
  if 9 + st.ralen + st.rblen ≤ st.blockA.length then
    writeAt st.blockA (9 + st.ralen) (subslice st.blockB 9 (9 + st.rblen))
  else st.blockA

/-- The two pass-through returns of `Decode`:
`a := blockA[9:9+alen]; b := blockB[9:9+blen]; return append(a, b...)`
with the given `broken` value (`nil` on the all-good path). -/
def fastPath (block1 block2 block3 : List Nat) (broken : Option (List Nat))
    (st : Roles) : Option DecRes :=
  if 9 + st.ralen ≤ st.blockA.length ∧ 9 + st.rblen ≤ st.blockB.length then
    some ⟨.done (subslice st.blockA 9 (9 + st.ralen) ++
                 subslice st.blockB 9 (9 + st.rblen)) broken,
          if st.aSlot = 1 then fastMut st else block1,
          if st.aSlot = 2 then fastMut st else block2,
          if st.aSlot = 3 then fastMut st else block3⟩
  else none

/-- `make([]byte, blocklen-4)` then `xor(dst, u[:blocklen-4],
v[:blocklen-4])`: the reconstructed body used by both reconstruction
paths. -/
def reconBody (bl : Nat) (u v : List Nat) : List Nat :=
  xorBuf (List.replicate (bl - 4) 0) (subslice u 0 (bl - 4))
    (subslice v 0 (bl - 4))

/-- Reconstruct-A path of `Decode` (`bgood && xgood`): rebuild A from B
and X, read its length field, and return
`append(a[9:9+alen], b[9:9+blen]...)`.  The `append` writes into the
fresh reconstructed array, never into a caller buffer.  `b[9:9+blen]`
slices `blockB[:blocklen-4]` beyond its length but within capacity, so
it reads from `blockB` itself. -/
def reconA (block1 block2 block3 : List Nat) (broken : Option (List Nat))
    (st : Roles) (bl : Nat) : Option DecRes :=
  if bl - 4 ≤ st.blockB.length ∧ bl - 4 ≤ st.blockX.length then
    if 9 ≤ bl - 4 then
      if 9 + buint64 (subslice (reconBody bl st.blockB st.blockX) 1 9) ≤
          bl - 4 ∧ 9 + st.rblen ≤ st.blockB.length then
        some ⟨.done (subslice (reconBody bl st.blockB st.blockX) 9
                (9 + buint64 (subslice (reconBody bl st.blockB st.blockX) 1 9))
              ++ subslice st.blockB 9 (9 + st.rblen)) broken,
              block1, block2, block3⟩
      else none
    else none
  else none

/-- In-place variant of the final `append` of the reconstruct-B path:
`a = blockA[:blocklen-4]` shares the role-A caller buffer, whose spare
capacity is reused exactly as on the fast path. -/
def reconBMut (st : Roles) (bl : Nat) : List Nat :=
  if 9 + st.ralen + buint64 (subslice (reconBody bl st.blockA st.blockX) 1 9) ≤
      st.blockA.length then
    writeAt st.blockA (9 + st.ralen)
      (subslice (reconBody bl st.blockA st.blockX) 9
        (9 + buint64 (subslice (reconBody bl st.blockA st.blockX) 1 9)))
  else st.blockA

/-- Reconstruct-B path of `Decode` (the final case): rebuild B from A
and X, read its length field, and return
`append(a[9:9+alen], b[9:9+blen]...)` where `a` aliases the role-A
caller buffer. -/
def reconB (block1 block2 block3 : List Nat) (broken : Option (List Nat))
    (st : Roles) (bl : Nat) : Option DecRes :=
  if bl - 4 ≤ st.blockA.length ∧ bl - 4 ≤ st.blockX.length then
    if 9 ≤ bl - 4 then
      if 9 + st.ralen ≤ st.blockA.length ∧
          9 + buint64 (subslice (reconBody bl st.blockA st.blockX) 1 9) ≤
            bl - 4 then
        some ⟨.done (subslice st.blockA 9 (9 + st.ralen) ++
              subslice (reconBody bl st.blockA st.blockX) 9
                (9 + buint64 (subslice (reconBody bl st.blockA st.blockX) 1 9)))
              broken,
              if st.aSlot = 1 then reconBMut st bl else block1,
              if st.aSlot = 2 then reconBMut st bl else block2,
              if st.aSlot = 3 then reconBMut st bl else block3⟩
      else none
    else none
  else none

/-- The `switch` that picks the `broken` return value: the first pair of
good blocks designates the remaining slot as broken. -/
def brokenSel (block1 block2 block3 : List Nat) (good1 good2 good3 : Bool) :
    Option (List Nat) :=
  if good1 && good2 then some block3
  else if good1 && good3 then some block2
  else if good2 && good3 then some block1
  else none

/-- The three role-assignment switches of `Decode` run in order on the
zero-initial role state. -/
def rolesOf (block1 block2 block3 : List Nat) (pos1 len1 : Nat) (good1 : Bool)
    (pos2 len2 : Nat) (good2 : Bool) (pos3 len3 : Nat) (good3 : Bool) :
    Roles :=
  setRole (setRole (setRole ⟨[], false, 0, 0, [], false, 0, [], false⟩
    1 block1 pos1 len1 good1) 2 block2 pos2 len2 good2) 3 block3 pos3 len3
    good3

/-- The decision table of `Decode` after validation: the three
impossible-reconstruction errors first, then the four success paths. -/
def decodePaths (block1 block2 block3 : List Nat) (broken : Option (List Nat))
    (st : Roles) (bl : Nat) : Option DecRes :=
  if !st.agood && !st.bgood then some ⟨.badAB, block1, block2, block3⟩
  else if !st.agood && !st.xgood then some ⟨.badAX, block1, block2, block3⟩
  else if !st.bgood && !st.xgood then some ⟨.badBX, block1, block2, block3⟩
  else if st.agood && st.bgood && st.xgood then
    fastPath block1 block2 block3 none st
  else if st.agood && st.bgood && !st.xgood then
    fastPath block1 block2 block3 broken st
  else if st.bgood && st.xgood then reconA block1 block2 block3 broken st bl
  else reconB block1 block2 block3 broken st bl

/-- Model of `Decode(block1, block2, block3)`.  Returns `none` exactly
when the Go code panics (a slice index out of range).  Note the size
precondition uses `&&` exactly as the source does.  `blocklen` is
`len(block1)`.  The post-state fields of the result expose the
contents of the three caller buffers after the call (Go `append` can
write into the buffer holding role A; see `fastMut`/`reconBMut`). -/
def Decode (block1 block2 block3 : List Nat) : Option DecRes :=
  if block1.length ≠ block2.length ∧ block2.length ≠ block3.length then
    some ⟨.sizeMismatch, block1, block2, block3⟩
  else
    match validate block1 with
    | none => none
    | some (pos1, len1, good1) =>
    match validate block2 with
    | none => none
    | some (pos2, len2, good2) =>
    match validate block3 with
    | none => none
    | some (pos3, len3, good3) =>
      decodePaths block1 block2 block3
        (brokenSel block1 block2 block3 good1 good2 good3)
        (rolesOf block1 block2 block3 pos1 len1 good1 pos2 len2 good2
          pos3 len3 good3)
        block1.length

/-- Projection: the Go return values `(result, broken, err)` of a
non-panicking `Decode` call, without the buffer post-states. -/
def decodeOut (block1 block2 block3 : List Nat) : Option DecOut :=
  (Decode block1 block2 block3).map DecRes.out

/-- The bytes held by the region `b[9 : 9+blen]` of block `b`: the
copied second half, zero-padded to the declared length `blen`. -/
def bwr (data : List Nat) : List Nat :=
  bdat data ++ List.replicate (blen data - (bdat data).length) 0

/-- The payload a successful all-blocks-good decode of `Encode data`
returns: `a[9:9+alen] ++ b[9:9+blen]`. -/
def pay (data : List Nat) : List Nat := data.take (alen data) ++ bwr data

/-- Contents of the caller buffer holding role A after a fast-path (or
reconstruct-B) decode of the blocks of `Encode data`: Go `append`
writes the B payload into it whenever it fits the spare capacity. -/
def postA (data : List Nat) : List Nat :=
  if 9 + alen data + blen data ≤ (encA data).length then
    writeAt (encA data) (9 + alen data) (bwr data)
  else encA data

theorem adler_fold_lt (l : List Nat) (s : Nat × Nat)
    (h1 : s.1 < 65521) (h2 : s.2 < 65521) :
    (l.foldl adlerStep s).1 < 65521 ∧ (l.foldl adlerStep s).2 < 65521 := by
  induction l generalizing s with
  | nil => exact ⟨h1, h2⟩
  | cons c t ih =>
      exact ih (adlerStep s c) (Nat.mod_lt _ (by omega)) (Nat.mod_lt _ (by omega))

theorem chcksum_lt (l : List Nat) : chcksum l < 4294967296 := by
  have h := adler_fold_lt l (1, 0) (by omega) (by omega)
  show (l.foldl adlerStep (1, 0)).2 * 65536 + (l.foldl adlerStep (1, 0)).1 <
    4294967296
  omega

theorem uint32b_length (u : Nat) : (uint32b u).length = 4 := rfl

theorem uint64b_length (u : Nat) : (uint64b u).length = 8 := rfl

theorem buint32_uint32b (u : Nat) (h : u < 4294967296) :
    buint32 (uint32b u) = u := by
  simp only [uint32b, buint32, List.getD, List.get?, Option.getD_some]
  omega

theorem buint64_uint64b (u : Nat) (h : u < 18446744073709551616) :
    buint64 (uint64b u) = u := by
  simp only [uint64b, buint64, List.getD, List.get?, Option.getD_some]
  omega

theorem subslice_prefix (xs ys : List Nat) (j : Nat) (h : j ≤ xs.length) :
    subslice (xs ++ ys) 0 j = xs.take j := by
  simp [subslice, List.take_append_of_le_length h]

theorem subslice_suffix (xs ys : List Nat) (i j : Nat)
    (hi : xs.length = i) (hj : xs.length + ys.length = j) :
    subslice (xs ++ ys) i j = ys := by
  have : (xs ++ ys).take j = xs ++ ys := by
    apply List.take_of_length_le
    simp [List.length_append]
    omega
  simp [subslice, this, List.drop_left' hi]

theorem subslice_mid (pre mid post : List Nat) (i j : Nat)
    (hp : pre.length = i) (hm : i + mid.length = j) :
    subslice (pre ++ (mid ++ post)) i j = mid := by
  have hj : j = pre.length + mid.length := by omega
  have ht : (pre ++ (mid ++ post)).take j = pre ++ mid := by
    rw [hj, List.take_append]
    simp [List.take_append_of_le_length (Nat.le_refl mid.length), List.take_length]
  simp [subslice, ht, List.drop_left' hp]

theorem subslice_append_left (xs ys : List Nat) (i j : Nat)
    (h : j ≤ xs.length) : subslice (xs ++ ys) i j = subslice xs i j := by
  simp [subslice, List.take_append_of_le_length h]

theorem zipWith_xor_recover (xs ys : List Nat) (h : xs.length = ys.length) :
    List.zipWith Nat.xor ys (List.zipWith Nat.xor xs ys) = xs := by
  induction xs generalizing ys with
  | nil => cases ys with
      | nil => rfl
      | cons y t => simp at h
  | cons x tx ih =>
      cases ys with
      | nil => simp at h
      | cons y ty =>
          simp only [List.zipWith_cons_cons]
          have hx : Nat.xor y (Nat.xor x y) = x := by
            show y ^^^ (x ^^^ y) = x
            rw [Nat.xor_comm x y, ← Nat.xor_assoc, Nat.xor_self, Nat.zero_xor]
          rw [hx, ih ty (by simpa using h)]

theorem zipWith_xor_recover' (xs ys : List Nat) (h : xs.length = ys.length) :
    List.zipWith Nat.xor xs (List.zipWith Nat.xor xs ys) = ys := by
  induction xs generalizing ys with
  | nil => cases ys with
      | nil => rfl
      | cons y t => simp at h
  | cons x tx ih =>
      cases ys with
      | nil => simp at h
      | cons y ty =>
          simp only [List.zipWith_cons_cons]
          have hx : Nat.xor x (Nat.xor x y) = y := by
            show x ^^^ (x ^^^ y) = y
            rw [← Nat.xor_assoc, Nat.xor_self, Nat.zero_xor]
          rw [hx, ih ty (by simpa using h)]

theorem alen_le_length (d : List Nat) : alen d ≤ d.length := by
  unfold alen; omega

theorem alen_le_blen (d : List Nat) : alen d ≤ blen d := by
  unfold blen; split <;> omega

theorem blen_le (d : List Nat) : blen d ≤ alen d + 1 := by
  unfold blen; split <;> omega

theorem bdat_length (d : List Nat) :
    (bdat d).length = min (blen d) (d.length - alen d) := by
  simp [bdat]

theorem bdat_le_blen (d : List Nat) : (bdat d).length ≤ blen d := by
  rw [bdat_length]; omega

theorem aBody_length (d : List Nat) : (aBody d).length = 9 + blen d := by
  have h1 : (d.take (alen d)).length = alen d := by
    simp [List.length_take, Nat.min_eq_left (alen_le_length d)]
  have h2 := alen_le_blen d
  simp [aBody, List.length_append, h1, uint64b_length]
  omega

theorem bBody_length (d : List Nat) : (bBody d).length = 9 + blen d := by
  have h2 := bdat_le_blen d
  simp [bBody, List.length_append, uint64b_length]
  omega

theorem xBody_length (d : List Nat) : (xBody d).length = 9 + blen d := by
  have ha := aBody_length d
  have hb := bBody_length d
  simp [xBody, xorBuf, blocklen, List.length_zipWith, List.length_take, ha, hb]
  omega

theorem encA_length (d : List Nat) : (encA d).length = blocklen d := by
  simp [encA, List.length_append, aBody_length, uint32b_length, blocklen]
  omega

theorem encB_length (d : List Nat) : (encB d).length = blocklen d := by
  simp [encB, List.length_append, bBody_length, uint32b_length, blocklen]
  omega

theorem encX_length (d : List Nat) : (encX d).length = blocklen d := by
  simp [encX, List.length_append, xBody_length, uint32b_length, blocklen]
  omega

theorem validate_framed (body : List Nat) (h9 : 9 ≤ body.length) :
    validate (body ++ uint32b (chcksum body)) =
      some (body.headD 0, buint64 (subslice body 1 9), true) := by
  have hlen : (body ++ uint32b (chcksum body)).length = body.length + 4 := by
    simp [List.length_append, uint32b_length]
  have hstored :
      subslice (body ++ uint32b (chcksum body))
        ((body ++ uint32b (chcksum body)).length - 4)
        (body ++ uint32b (chcksum body)).length = uint32b (chcksum body) := by
    apply subslice_suffix
    · omega
    · simp [uint32b_length]
  have hbody :
      subslice (body ++ uint32b (chcksum body)) 0
        ((body ++ uint32b (chcksum body)).length - 4) = body := by
    have h4 : (body ++ uint32b (chcksum body)).length - 4 = body.length := by
      omega
    rw [h4, subslice_prefix _ _ _ (Nat.le_refl _), List.take_length]
  have hhdr :
      subslice (body ++ uint32b (chcksum body)) 1 9 = subslice body 1 9 :=
    subslice_append_left _ _ 1 9 (by omega)
  have hhead : (body ++ uint32b (chcksum body)).headD 0 = body.headD 0 := by
    cases body with
    | nil => simp at h9
    | cons c t => rfl
  unfold validate
  rw [hstored, hbody, buint32_uint32b _ (chcksum_lt body)]
  rw [if_pos (by omega : 4 ≤ (body ++ uint32b (chcksum body)).length)]
  rw [if_neg (by simp : ¬ chcksum body ≠ chcksum body)]
  rw [if_pos (by omega : 9 ≤ (body ++ uint32b (chcksum body)).length)]
  rw [hhdr, hhead]

theorem aBody_assoc (d : List Nat) :
    aBody d = 1 :: (uint64b (alen d) ++
      (d.take (alen d) ++ List.replicate (blen d - alen d) 0)) := by
  simp [aBody]

theorem bBody_assoc (d : List Nat) :
    bBody d = 2 :: (uint64b (blen d) ++
      (bdat d ++ List.replicate (blen d - (bdat d).length) 0)) := by
  simp [bBody]

theorem subslice_header (o : Nat) (len8 rest : List Nat)
    (h : len8.length = 8) : subslice (o :: (len8 ++ rest)) 1 9 = len8 := by
  have : (o :: (len8 ++ rest)) = [o] ++ (len8 ++ rest) := rfl
  rw [this]
  exact subslice_mid [o] len8 rest 1 9 rfl (by omega)

theorem xBody_eq (d : List Nat) :
    xBody d = List.zipWith Nat.xor (aBody d) (bBody d) := by
  have hrep : (List.replicate (blocklen d - 4) 0).length = 9 + blen d := by
    simp [blocklen]; omega
  unfold xBody xorBuf
  rw [hrep, ← aBody_length d, List.take_length, aBody_length d,
    ← bBody_length d, List.take_length]

theorem xBody_cons (d : List Nat) :
    xBody d = 3 :: List.zipWith Nat.xor
      (uint64b (alen d) ++ (d.take (alen d) ++ List.replicate (blen d - alen d) 0))
      (uint64b (blen d) ++ (bdat d ++ List.replicate (blen d - (bdat d).length) 0)) := by
  rw [xBody_eq, aBody_assoc, bBody_assoc, List.zipWith_cons_cons]
  have h12 : Nat.xor 1 2 = 3 := rfl
  rw [h12]

theorem validate_encA (d : List Nat) (hn : d.length < 18446744073709551616) :
    validate (encA d) = some (1, alen d, true) := by
  have h9 : 9 ≤ (aBody d).length := by rw [aBody_length]; omega
  unfold encA
  rw [validate_framed _ h9]
  rw [aBody_assoc, subslice_header 1 _ _ (uint64b_length _)]
  simp only [List.headD_cons]
  rw [buint64_uint64b _ (by unfold alen; omega)]

theorem validate_encB (d : List Nat) (hn : d.length < 18446744073709551616) :
    validate (encB d) = some (2, blen d, true) := by
  have h9 : 9 ≤ (bBody d).length := by rw [bBody_length]; omega
  have hblen : blen d < 18446744073709551616 := by
    have := blen_le d
    unfold alen at this
    omega
  unfold encB
  rw [validate_framed _ h9]
  rw [bBody_assoc, subslice_header 2 _ _ (uint64b_length _)]
  simp only [List.headD_cons]
  rw [buint64_uint64b _ hblen]

theorem validate_encX (d : List Nat) :
    ∃ lx, validate (encX d) = some (3, lx, true) := by
  have h9 : 9 ≤ (xBody d).length := by rw [xBody_length]; omega
  refine ⟨buint64 (subslice (xBody d) 1 9), ?_⟩
  unfold encX
  rw [validate_framed _ h9]
  conv_lhs => rw [xBody_cons]
  simp only [List.headD_cons]
  rw [← xBody_cons]

theorem validate_bad_shape (b : List Nat) (p l : Nat)
    (h : validate b = some (p, l, false)) : p = 0 ∧ l = 0 := by
  unfold validate at h
  by_cases h4 : 4 ≤ b.length
  · rw [if_pos h4] at h
    by_cases hm : buint32 (subslice b (b.length - 4) b.length) ≠
        chcksum (subslice b 0 (b.length - 4))
    · rw [if_pos hm] at h
      injection h with h
      injection h with h1 h
      injection h with h2 h
      exact ⟨h1.symm, h2.symm⟩
    · rw [if_neg hm] at h
      by_cases h9 : 9 ≤ b.length
      · rw [if_pos h9] at h
        injection h with h
        injection h with h1 h
        injection h with h2 h3
        simp at h3
      · rw [if_neg h9] at h
        exact absurd h (by simp)
  · rw [if_neg h4] at h
    exact absurd h (by simp)

theorem validate_short (b : List Nat) (h : b.length < 4) :
    validate b = none := by
  unfold validate
  rw [if_neg (by omega)]

theorem bwr_length (d : List Nat) : (bwr d).length = blen d := by
  have h := bdat_le_blen d
  simp [bwr, List.length_append]
  omega

theorem take_alen_length (d : List Nat) :
    (d.take (alen d)).length = alen d := by
  simp [List.length_take, Nat.min_eq_left (alen_le_length d)]

theorem aBody_payload (d : List Nat) :
    subslice (aBody d) 9 (9 + alen d) = d.take (alen d) := by
  have hsh : aBody d = ([1] ++ uint64b (alen d)) ++
      (d.take (alen d) ++ List.replicate (blen d - alen d) 0) := by
    simp [aBody]
  rw [hsh]
  exact subslice_mid _ _ _ 9 (9 + alen d)
    (by simp [uint64b_length])
    (by rw [take_alen_length])

theorem bBody_payload (d : List Nat) :
    subslice (bBody d) 9 (9 + blen d) = bwr d := by
  have hsh : bBody d = ([2] ++ uint64b (blen d)) ++ (bwr d ++ []) := by
    simp [bBody, bwr]
  rw [hsh]
  exact subslice_mid _ _ _ 9 (9 + blen d)
    (by simp [uint64b_length])
    (by rw [bwr_length])

theorem encA_payload (d : List Nat) :
    subslice (encA d) 9 (9 + alen d) = d.take (alen d) := by
  unfold encA
  rw [subslice_append_left _ _ 9 (9 + alen d)
    (by rw [aBody_length]; have := alen_le_blen d; omega)]
  exact aBody_payload d

theorem encB_payload (d : List Nat) :
    subslice (encB d) 9 (9 + blen d) = bwr d := by
  unfold encB
  rw [subslice_append_left _ _ 9 (9 + blen d) (by rw [bBody_length])]
  exact bBody_payload d

theorem encA_body_slice (d : List Nat) :
    subslice (encA d) 0 (blocklen d - 4) = aBody d := by
  unfold encA
  have h : blocklen d - 4 = (aBody d).length := by
    rw [aBody_length]; unfold blocklen; omega
  rw [h, subslice_prefix _ _ _ (Nat.le_refl _), List.take_length]

theorem encB_body_slice (d : List Nat) :
    subslice (encB d) 0 (blocklen d - 4) = bBody d := by
  unfold encB
  have h : blocklen d - 4 = (bBody d).length := by
    rw [bBody_length]; unfold blocklen; omega
  rw [h, subslice_prefix _ _ _ (Nat.le_refl _), List.take_length]

theorem encX_body_slice (d : List Nat) :
    subslice (encX d) 0 (blocklen d - 4) = xBody d := by
  unfold encX
  have h : blocklen d - 4 = (xBody d).length := by
    rw [xBody_length]; unfold blocklen; omega
  rw [h, subslice_prefix _ _ _ (Nat.le_refl _), List.take_length]

theorem aBody_from_bx (d : List Nat) :
    List.zipWith Nat.xor (bBody d) (xBody d) = aBody d := by
  rw [xBody_eq]
  exact zipWith_xor_recover _ _ (by rw [aBody_length, bBody_length])

theorem bBody_from_ax (d : List Nat) :
    List.zipWith Nat.xor (aBody d) (xBody d) = bBody d := by
  rw [xBody_eq]
  exact zipWith_xor_recover' _ _ (by rw [aBody_length, bBody_length])

theorem blen_eq_mod4 (d : List Nat)
    (h4 : d.length % 4 = 0 ∨ d.length % 4 = 3) :
    blen d = d.length - alen d := by
  unfold blen alen
  split <;> omega

theorem bwr_eq_drop (d : List Nat)
    (h4 : d.length % 4 = 0 ∨ d.length % 4 = 3) :
    bwr d = d.drop (alen d) := by
  have hb := blen_eq_mod4 d h4
  have ha := alen_le_length d
  have h1 : bdat d = d.drop (alen d) := by
    unfold bdat
    exact List.take_of_length_le (by simp [List.length_drop]; omega)
  unfold bwr
  rw [h1]
  have h2 : blen d - (d.drop (alen d)).length = 0 := by
    simp [List.length_drop]; omega
  rw [h2]
  simp

theorem pay_eq (d : List Nat)
    (h4 : d.length % 4 = 0 ∨ d.length % 4 = 3) : pay d = d := by
  unfold pay
  rw [bwr_eq_drop d h4, List.take_append_drop]

theorem postA_of_gt (d : List Nat) (h : 4 < alen d) : postA d = encA d := by
  unfold postA
  rw [if_neg]
  rw [encA_length]
  unfold blocklen
  omega

theorem decode_eq_paths (b1 b2 b3 : List Nat) (p1 l1 : Nat) (g1 : Bool)
    (p2 l2 : Nat) (g2 : Bool) (p3 l3 : Nat) (g3 : Bool)
    (hsz : ¬ (b1.length ≠ b2.length ∧ b2.length ≠ b3.length))
    (h1 : validate b1 = some (p1, l1, g1))
    (h2 : validate b2 = some (p2, l2, g2))
    (h3 : validate b3 = some (p3, l3, g3)) :
    Decode b1 b2 b3 = decodePaths b1 b2 b3
      (brokenSel b1 b2 b3 g1 g2 g3)
      (rolesOf b1 b2 b3 p1 l1 g1 p2 l2 g2 p3 l3 g3) b1.length := by
  unfold Decode
  rw [if_neg hsz, h1, h2, h3]

theorem aBody_len_field (d : List Nat)
    (hn : d.length < 18446744073709551616) :
    buint64 (subslice (aBody d) 1 9) = alen d := by
  rw [aBody_assoc, subslice_header 1 _ _ (uint64b_length _)]
  exact buint64_uint64b _ (by unfold alen; omega)

theorem bBody_len_field (d : List Nat)
    (hn : d.length < 18446744073709551616) :
    buint64 (subslice (bBody d) 1 9) = blen d := by
  have hblen : blen d < 18446744073709551616 := by
    have := blen_le d
    unfold alen at this
    omega
  rw [bBody_assoc, subslice_header 2 _ _ (uint64b_length _)]
  exact buint64_uint64b _ hblen

theorem reconBody_bx (d : List Nat) :
    reconBody (blocklen d) (encB d) (encX d) = aBody d := by
  unfold reconBody
  rw [encB_body_slice, encX_body_slice]
  unfold xorBuf
  have hrep : (List.replicate (blocklen d - 4) 0).length = 9 + blen d := by
    simp [blocklen]; omega
  rw [hrep, ← bBody_length d, List.take_length, bBody_length d,
    ← xBody_length d, List.take_length]
  exact aBody_from_bx d

theorem reconBody_ax (d : List Nat) :
    reconBody (blocklen d) (encA d) (encX d) = bBody d := by
  unfold reconBody
  rw [encA_body_slice, encX_body_slice]
  unfold xorBuf
  have hrep : (List.replicate (blocklen d - 4) 0).length = 9 + blen d := by
    simp [blocklen]; omega
  rw [hrep, ← aBody_length d, List.take_length, aBody_length d,
    ← xBody_length d, List.take_length]
  exact bBody_from_ax d

theorem fastMut_enc (d : List Nat) (s : Nat) (X : List Nat) (xg : Bool) :
    fastMut ⟨encA d, true, alen d, s, encB d, true, blen d, X, xg⟩ =
      postA d := by
  unfold fastMut postA
  rw [encB_payload]

theorem reconBMut_enc (d : List Nat) (s : Nat)
    (hn : d.length < 18446744073709551616) :
    reconBMut ⟨encA d, true, alen d, s, [], false, 0, encX d, true⟩
      (blocklen d) = postA d := by
  unfold reconBMut postA
  rw [reconBody_ax, bBody_len_field d hn, bBody_payload]

theorem roles_abx (A B X : List Nat) (la lb lx : Nat) :
    rolesOf A B X 1 la true 2 lb true 3 lx true =
      ⟨A, true, la, 1, B, true, lb, X, true⟩ := by
  norm_num [rolesOf, setRole]

theorem roles_axb (A B X : List Nat) (la lb lx : Nat) :
    rolesOf A X B 1 la true 3 lx true 2 lb true =
      ⟨A, true, la, 1, B, true, lb, X, true⟩ := by
  norm_num [rolesOf, setRole]

theorem roles_bax (A B X : List Nat) (la lb lx : Nat) :
    rolesOf B A X 2 lb true 1 la true 3 lx true =
      ⟨A, true, la, 2, B, true, lb, X, true⟩ := by
  norm_num [rolesOf, setRole]

theorem roles_bxa (A B X : List Nat) (la lb lx : Nat) :
    rolesOf B X A 2 lb true 3 lx true 1 la true =
      ⟨A, true, la, 3, B, true, lb, X, true⟩ := by
  norm_num [rolesOf, setRole]

theorem roles_xab (A B X : List Nat) (la lb lx : Nat) :
    rolesOf X A B 3 lx true 1 la true 2 lb true =
      ⟨A, true, la, 2, B, true, lb, X, true⟩ := by
  norm_num [rolesOf, setRole]

theorem roles_xba (A B X : List Nat) (la lb lx : Nat) :
    rolesOf X B A 3 lx true 2 lb true 1 la true =
      ⟨A, true, la, 3, B, true, lb, X, true⟩ := by
  norm_num [rolesOf, setRole]

theorem roles_cbx (C B X : List Nat) (lb lx : Nat) :
    rolesOf C B X 0 0 false 2 lb true 3 lx true =
      ⟨[], false, 0, 0, B, true, lb, X, true⟩ := by
  norm_num [rolesOf, setRole]

theorem roles_acx (A C X : List Nat) (la lx : Nat) :
    rolesOf A C X 1 la true 0 0 false 3 lx true =
      ⟨A, true, la, 1, [], false, 0, X, true⟩ := by
  norm_num [rolesOf, setRole]

theorem roles_abc (A B C : List Nat) (la lb : Nat) :
    rolesOf A B C 1 la true 2 lb true 0 0 false =
      ⟨A, true, la, 1, B, true, lb, [], false⟩ := by
  norm_num [rolesOf, setRole]

theorem decodePaths_allgood (b1 b2 b3 A B X : List Nat) (la lb : Nat)
    (s : Nat) (brk : Option (List Nat)) (bl : Nat)
    (hA : 9 + la ≤ A.length) (hB : 9 + lb ≤ B.length) :
    decodePaths b1 b2 b3 brk ⟨A, true, la, s, B, true, lb, X, true⟩ bl =
      some ⟨.done (subslice A 9 (9 + la) ++ subslice B 9 (9 + lb)) none,
            if s = 1 then fastMut ⟨A, true, la, s, B, true, lb, X, true⟩
            else b1,
            if s = 2 then fastMut ⟨A, true, la, s, B, true, lb, X, true⟩
            else b2,
            if s = 3 then fastMut ⟨A, true, la, s, B, true, lb, X, true⟩
            else b3⟩ := by
  show fastPath b1 b2 b3 none ⟨A, true, la, s, B, true, lb, X, true⟩ = _
  unfold fastPath
  rw [if_pos ⟨hA, hB⟩]

theorem decodePaths_xbad (b1 b2 b3 A B : List Nat) (la lb : Nat)
    (s : Nat) (brk : Option (List Nat)) (bl : Nat)
    (hA : 9 + la ≤ A.length) (hB : 9 + lb ≤ B.length) :
    decodePaths b1 b2 b3 brk ⟨A, true, la, s, B, true, lb, [], false⟩ bl =
      some ⟨.done (subslice A 9 (9 + la) ++ subslice B 9 (9 + lb)) brk,
            if s = 1 then fastMut ⟨A, true, la, s, B, true, lb, [], false⟩
            else b1,
            if s = 2 then fastMut ⟨A, true, la, s, B, true, lb, [], false⟩
            else b2,
            if s = 3 then fastMut ⟨A, true, la, s, B, true, lb, [], false⟩
            else b3⟩ := by
  show fastPath b1 b2 b3 brk ⟨A, true, la, s, B, true, lb, [], false⟩ = _
  unfold fastPath
  rw [if_pos ⟨hA, hB⟩]

theorem decodePaths_abad (b1 b2 b3 B X : List Nat) (lb : Nat)
    (brk : Option (List Nat)) (bl : Nat) :
    decodePaths b1 b2 b3 brk ⟨[], false, 0, 0, B, true, lb, X, true⟩ bl =
      reconA b1 b2 b3 brk ⟨[], false, 0, 0, B, true, lb, X, true⟩ bl := rfl

theorem decodePaths_bbad (b1 b2 b3 A X : List Nat) (la : Nat) (s : Nat)
    (brk : Option (List Nat)) (bl : Nat) :
    decodePaths b1 b2 b3 brk ⟨A, true, la, s, [], false, 0, X, true⟩ bl =
      reconB b1 b2 b3 brk ⟨A, true, la, s, [], false, 0, X, true⟩ bl := rfl

theorem hsz_same (u v w : List Nat) (huv : u.length = v.length) :
    ¬ (u.length ≠ v.length ∧ v.length ≠ w.length) := by
  rw [huv]
  simp

theorem bounds_A (d : List Nat) : 9 + alen d ≤ (encA d).length := by
  rw [encA_length]
  have := alen_le_blen d
  unfold blocklen
  omega

theorem bounds_B (d : List Nat) : 9 + blen d ≤ (encB d).length := by
  rw [encB_length]
  unfold blocklen
  omega

theorem decode_enc_abx (d : List Nat)
    (hn : d.length < 18446744073709551616) :
    Decode (encA d) (encB d) (encX d) =
      some ⟨.done (pay d) none, postA d, encB d, encX d⟩ := by
  obtain ⟨lx, hvx⟩ := validate_encX d
  rw [decode_eq_paths _ _ _ 1 (alen d) true 2 (blen d) true 3 lx true
      (hsz_same _ _ _ (by rw [encA_length, encB_length]))
      (validate_encA d hn) (validate_encB d hn) hvx]
  rw [roles_abx]
  rw [decodePaths_allgood _ _ _ _ _ _ _ _ _ _ _ (bounds_A d) (bounds_B d)]
  rw [encA_payload, encB_payload, fastMut_enc]
  norm_num [pay]

theorem decode_enc_axb (d : List Nat)
    (hn : d.length < 18446744073709551616) :
    Decode (encA d) (encX d) (encB d) =
      some ⟨.done (pay d) none, postA d, encX d, encB d⟩ := by
  obtain ⟨lx, hvx⟩ := validate_encX d
  rw [decode_eq_paths _ _ _ 1 (alen d) true 3 lx true 2 (blen d) true
      (hsz_same _ _ _ (by rw [encA_length, encX_length]))
      (validate_encA d hn) hvx (validate_encB d hn)]
  rw [roles_axb]
  rw [decodePaths_allgood _ _ _ _ _ _ _ _ _ _ _ (bounds_A d) (bounds_B d)]
  rw [encA_payload, encB_payload, fastMut_enc]
  norm_num [pay]

theorem decode_enc_bax (d : List Nat)
    (hn : d.length < 18446744073709551616) :
    Decode (encB d) (encA d) (encX d) =
      some ⟨.done (pay d) none, encB d, postA d, encX d⟩ := by
  obtain ⟨lx, hvx⟩ := validate_encX d
  rw [decode_eq_paths _ _ _ 2 (blen d) true 1 (alen d) true 3 lx true
      (hsz_same _ _ _ (by rw [encB_length, encA_length]))
      (validate_encB d hn) (validate_encA d hn) hvx]
  rw [roles_bax]
  rw [decodePaths_allgood _ _ _ _ _ _ _ _ _ _ _ (bounds_A d) (bounds_B d)]
  rw [encA_payload, encB_payload, fastMut_enc]
  norm_num [pay]

theorem decode_enc_bxa (d : List Nat)
    (hn : d.length < 18446744073709551616) :
    Decode (encB d) (encX d) (encA d) =
      some ⟨.done (pay d) none, encB d, encX d, postA d⟩ := by
  obtain ⟨lx, hvx⟩ := validate_encX d
  rw [decode_eq_paths _ _ _ 2 (blen d) true 3 lx true 1 (alen d) true
      (hsz_same _ _ _ (by rw [encB_length, encX_length]))
      (validate_encB d hn) hvx (validate_encA d hn)]
  rw [roles_bxa]
  rw [decodePaths_allgood _ _ _ _ _ _ _ _ _ _ _ (bounds_A d) (bounds_B d)]
  rw [encA_payload, encB_payload, fastMut_enc]
  norm_num [pay]

theorem decode_enc_xab (d : List Nat)
    (hn : d.length < 18446744073709551616) :
    Decode (encX d) (encA d) (encB d) =
      some ⟨.done (pay d) none, encX d, postA d, encB d⟩ := by
  obtain ⟨lx, hvx⟩ := validate_encX d
  rw [decode_eq_paths _ _ _ 3 lx true 1 (alen d) true 2 (blen d) true
      (hsz_same _ _ _ (by rw [encX_length, encA_length]))
      hvx (validate_encA d hn) (validate_encB d hn)]
  rw [roles_xab]
  rw [decodePaths_allgood _ _ _ _ _ _ _ _ _ _ _ (bounds_A d) (bounds_B d)]
  rw [encA_payload, encB_payload, fastMut_enc]
  norm_num [pay]

theorem decode_enc_xba (d : List Nat)
    (hn : d.length < 18446744073709551616) :
    Decode (encX d) (encB d) (encA d) =
      some ⟨.done (pay d) none, encX d, encB d, postA d⟩ := by
  obtain ⟨lx, hvx⟩ := validate_encX d
  rw [decode_eq_paths _ _ _ 3 lx true 2 (blen d) true 1 (alen d) true
      (hsz_same _ _ _ (by rw [encX_length, encB_length]))
      hvx (validate_encB d hn) (validate_encA d hn)]
  rw [roles_xba]
  rw [decodePaths_allgood _ _ _ _ _ _ _ _ _ _ _ (bounds_A d) (bounds_B d)]
  rw [encA_payload, encB_payload, fastMut_enc]
  norm_num [pay]

theorem decode_enc_badX (d c : List Nat)
    (hn : d.length < 18446744073709551616) (hlen : c.length = blocklen d)
    (hbad : validate c = some (0, 0, false)) :
    Decode (encA d) (encB d) c =
      some ⟨.done (pay d) (some c), postA d, encB d, c⟩ := by
  rw [decode_eq_paths _ _ _ 1 (alen d) true 2 (blen d) true 0 0 false
      (hsz_same _ _ _ (by rw [encA_length, encB_length]))
      (validate_encA d hn) (validate_encB d hn) hbad]
  rw [roles_abc]
  have hbrk : brokenSel (encA d) (encB d) c true true false = some c := rfl
  rw [hbrk]
  rw [decodePaths_xbad _ _ _ _ _ _ _ _ _ _ (bounds_A d) (bounds_B d)]
  rw [encA_payload, encB_payload, fastMut_enc]
  norm_num [pay]

theorem decode_enc_badA (d c : List Nat)
    (hn : d.length < 18446744073709551616) (hlen : c.length = blocklen d)
    (hbad : validate c = some (0, 0, false)) :
    Decode c (encB d) (encX d) =
      some ⟨.done (pay d) (some c), c, encB d, encX d⟩ := by
  obtain ⟨lx, hvx⟩ := validate_encX d
  rw [decode_eq_paths _ _ _ 0 0 false 2 (blen d) true 3 lx true
      (hsz_same _ _ _ (by rw [hlen, encB_length]))
      hbad (validate_encB d hn) hvx]
  rw [roles_cbx]
  have hbrk : brokenSel c (encB d) (encX d) false true true = some c := rfl
  rw [hbrk, decodePaths_abad, hlen]
  simp only [reconA]
  rw [reconBody_bx, aBody_len_field d hn]
  rw [if_pos ⟨by rw [encB_length]; unfold blocklen; omega,
              by rw [encX_length]; unfold blocklen; omega⟩]
  rw [if_pos (by unfold blocklen; omega : 9 ≤ blocklen d - 4)]
  rw [if_pos ⟨by have := alen_le_blen d; unfold blocklen; omega,
              bounds_B d⟩]
  rw [aBody_payload, encB_payload]
  norm_num [pay]

theorem decode_enc_badB (d c : List Nat)
    (hn : d.length < 18446744073709551616) (hlen : c.length = blocklen d)
    (hbad : validate c = some (0, 0, false)) :
    Decode (encA d) c (encX d) =
      some ⟨.done (pay d) (some c), postA d, c, encX d⟩ := by
  obtain ⟨lx, hvx⟩ := validate_encX d
  rw [decode_eq_paths _ _ _ 1 (alen d) true 0 0 false 3 lx true
      (hsz_same _ _ _ (by rw [encA_length, hlen]))
      (validate_encA d hn) hbad hvx]
  rw [roles_acx]
  have hbrk : brokenSel (encA d) c (encX d) true false true = some c := rfl
  rw [hbrk, decodePaths_bbad, encA_length]
  simp only [reconB]
  rw [reconBody_ax, bBody_len_field d hn]
  rw [if_pos ⟨by rw [encA_length]; unfold blocklen; omega,
              by rw [encX_length]; unfold blocklen; omega⟩]
  rw [if_pos (by unfold blocklen; omega : 9 ≤ blocklen d - 4)]
  rw [if_pos ⟨bounds_A d, by unfold blocklen; omega⟩]
  rw [reconBMut_enc d 1 hn, encA_payload, bBody_payload]
  norm_num [pay]

theorem roles_one_good (b : List Nat) (q l : Nat) (blkA blkB blkX : List Nat)
    (ga gb gx : Bool) (la lb sa : Nat)
    (hq1 : q ≠ 1) (hq2 : q ≠ 2) (hq3 : q ≠ 3) :
    setRole ⟨blkA, ga, la, sa, blkB, gb, lb, blkX, gx⟩ 1 b q l true =
      ⟨blkA, ga, la, sa, blkB, gb, lb, blkX, gx⟩ := by
  unfold setRole
  rw [if_neg hq1, if_neg hq2, if_neg hq3]

theorem decode_le_one_good (b1 b2 b3 : List Nat) (p1 l1 p2 l2 p3 l3 : Nat)
    (g1 g2 g3 : Bool)
    (h12 : b1.length = b2.length)
    (hv1 : validate b1 = some (p1, l1, g1))
    (hv2 : validate b2 = some (p2, l2, g2))
    (hv3 : validate b3 = some (p3, l3, g3))
    (hcount : (if g1 then 1 else 0) + (if g2 then 1 else 0) +
      (if g3 then 1 else 0) ≤ 1) :
    Decode b1 b2 b3 = some ⟨.badAB, b1, b2, b3⟩ ∨
    Decode b1 b2 b3 = some ⟨.badAX, b1, b2, b3⟩ ∨
    Decode b1 b2 b3 = some ⟨.badBX, b1, b2, b3⟩ := by
  rw [decode_eq_paths _ _ _ p1 l1 g1 p2 l2 g2 p3 l3 g3
    (hsz_same _ _ _ h12) hv1 hv2 hv3]
  cases g1 <;> cases g2 <;> cases g3 <;> norm_num at hcount
  -- case false false false
  case false.false.false =>
    obtain ⟨hp1, hl1⟩ := validate_bad_shape _ _ _ hv1
    obtain ⟨hp2, hl2⟩ := validate_bad_shape _ _ _ hv2
    obtain ⟨hp3, hl3⟩ := validate_bad_shape _ _ _ hv3
    subst hp1; subst hl1; subst hp2; subst hl2; subst hp3; subst hl3
    left; rfl
  -- case true false false: only slot 1 is good, its order byte is p1
  case true.false.false =>
    obtain ⟨hp2, hl2⟩ := validate_bad_shape _ _ _ hv2
    obtain ⟨hp3, hl3⟩ := validate_bad_shape _ _ _ hv3
    subst hp2; subst hl2; subst hp3; subst hl3
    by_cases hq1 : p1 = 1
    · subst hq1
      have hst : rolesOf b1 b2 b3 1 l1 true 0 0 false 0 0 false =
          ⟨b1, true, l1, 1, [], false, 0, [], false⟩ := by
        norm_num [rolesOf, setRole]
      rw [hst]
      right; right; rfl
    by_cases hq2 : p1 = 2
    · subst hq2
      have hst : rolesOf b1 b2 b3 2 l1 true 0 0 false 0 0 false =
          ⟨[], false, 0, 0, b1, true, l1, [], false⟩ := by
        norm_num [rolesOf, setRole]
      rw [hst]
      right; left; rfl
    by_cases hq3 : p1 = 3
    · subst hq3
      have hst : rolesOf b1 b2 b3 3 l1 true 0 0 false 0 0 false =
          ⟨[], false, 0, 0, [], false, 0, b1, true⟩ := by
        norm_num [rolesOf, setRole]
      rw [hst]
      left; rfl
    · have hst : rolesOf b1 b2 b3 p1 l1 true 0 0 false 0 0 false =
          ⟨[], false, 0, 0, [], false, 0, [], false⟩ := by
        unfold rolesOf
        rw [roles_one_good _ _ _ _ _ _ _ _ _ _ _ _ hq1 hq2 hq3]
        norm_num [setRole]
      rw [hst]
      left; rfl
  -- case false true false: only slot 2 is good
  case false.true.false =>
    obtain ⟨hp1, hl1⟩ := validate_bad_shape _ _ _ hv1
    obtain ⟨hp3, hl3⟩ := validate_bad_shape _ _ _ hv3
    subst hp1; subst hl1; subst hp3; subst hl3
    by_cases hq1 : p2 = 1
    · subst hq1
      have hst : rolesOf b1 b2 b3 0 0 false 1 l2 true 0 0 false =
          ⟨b2, true, l2, 2, [], false, 0, [], false⟩ := by
        norm_num [rolesOf, setRole]
      rw [hst]
      right; right; rfl
    by_cases hq2 : p2 = 2
    · subst hq2
      have hst : rolesOf b1 b2 b3 0 0 false 2 l2 true 0 0 false =
          ⟨[], false, 0, 0, b2, true, l2, [], false⟩ := by
        norm_num [rolesOf, setRole]
      rw [hst]
      right; left; rfl
    by_cases hq3 : p2 = 3
    · subst hq3
      have hst : rolesOf b1 b2 b3 0 0 false 3 l2 true 0 0 false =
          ⟨[], false, 0, 0, [], false, 0, b2, true⟩ := by
        norm_num [rolesOf, setRole]
      rw [hst]
      left; rfl
    · have hst : rolesOf b1 b2 b3 0 0 false p2 l2 true 0 0 false =
          ⟨[], false, 0, 0, [], false, 0, [], false⟩ := by
        norm_num [rolesOf, setRole]
        rw [if_neg hq1, if_neg hq2, if_neg hq3]
      rw [hst]
      left; rfl
  -- case false false true: only slot 3 is good
  case false.false.true =>
    obtain ⟨hp1, hl1⟩ := validate_bad_shape _ _ _ hv1
    obtain ⟨hp2, hl2⟩ := validate_bad_shape _ _ _ hv2
    subst hp1; subst hl1; subst hp2; subst hl2
    by_cases hq1 : p3 = 1
    · subst hq1
      have hst : rolesOf b1 b2 b3 0 0 false 0 0 false 1 l3 true =
          ⟨b3, true, l3, 3, [], false, 0, [], false⟩ := by
        norm_num [rolesOf, setRole]
      rw [hst]
      right; right; rfl
    by_cases hq2 : p3 = 2
    · subst hq2
      have hst : rolesOf b1 b2 b3 0 0 false 0 0 false 2 l3 true =
          ⟨[], false, 0, 0, b3, true, l3, [], false⟩ := by
        norm_num [rolesOf, setRole]
      rw [hst]
      right; left; rfl
    by_cases hq3 : p3 = 3
    · subst hq3
      have hst : rolesOf b1 b2 b3 0 0 false 0 0 false 3 l3 true =
          ⟨[], false, 0, 0, [], false, 0, b3, true⟩ := by
        norm_num [rolesOf, setRole]
      rw [hst]
      left; rfl
    · have hst : rolesOf b1 b2 b3 0 0 false 0 0 false p3 l3 true =
          ⟨[], false, 0, 0, [], false, 0, [], false⟩ := by
        norm_num [rolesOf, setRole]
        rw [if_neg hq1, if_neg hq2, if_neg hq3]
      rw [hst]
      left; rfl

theorem adler_zeros_fst (k : Nat) (b : Nat) :
    ((List.replicate k 0).foldl adlerStep (1, b)).1 = 1 := by
  induction k generalizing b with
  | zero => rfl
  | succ n ih =>
      rw [List.replicate_succ, List.foldl_cons]
      have hstep : adlerStep (1, b) 0 = (1, (b + 1) % 65521) := by
        unfold adlerStep
        norm_num
      rw [hstep]
      exact ih _

theorem chcksum_zeros_ne (k : Nat) : chcksum (List.replicate k 0) ≠ 0 := by
  have h := adler_zeros_fst k 0
  show ((List.replicate k 0).foldl adlerStep (1, 0)).2 * 65536 +
    ((List.replicate k 0).foldl adlerStep (1, 0)).1 ≠ 0
  omega

theorem buint32_zeros (k : Nat) : buint32 (List.replicate k 0) = 0 := by
  unfold buint32
  have h : ∀ i, (List.replicate k (0 : Nat)).getD i 0 = 0 := by
    intro i
    by_cases hik : i < k
    · rw [List.getD_eq_getElem _ _ (by simpa using hik)]
      simp
    · rw [List.getD_eq_default]
      simpa using hik
  rw [h 3, h 2, h 1, h 0]

/-- An all-zero buffer of length at least 4 always fails validation: its
stored checksum field is zero, while adler32 of zeroes is never zero
(its low half is 1). -/
theorem allzero_fails_validation (n : Nat) (h : 4 ≤ n) :
    validate (List.replicate n 0) = some (0, 0, false) := by
  have hlen : (List.replicate (n : Nat) (0 : Nat)).length = n := by simp
  have hsub : ∀ i j : Nat, subslice (List.replicate n (0 : Nat)) i j =
      List.replicate (min j n - i) 0 := by
    intro i j
    unfold subslice
    rw [List.take_replicate, List.drop_replicate]
  unfold validate
  rw [hlen, if_pos h, hsub, hsub, buint32_zeros]
  rw [if_pos (Ne.symm (chcksum_zeros_ne _))]

theorem blen_char (d : List Nat) :
    blen d = d.length / 2 + d.length / 2 % 2 := by
  unfold blen alen
  split <;> omega

/-- C1: the round-trip claim fails on the code.  `Decode` of the three
blocks of `Encode [0]` succeeds with an empty payload and no broken
block, instead of returning the payload `[0]`: `blen` is bumped on the
parity of `len(data)/2` instead of `len(data)`, so for a 1-byte payload
both halves are declared empty and the byte is lost. -/
theorem c1_roundtrip_code_bug :
    Decode (Encode [0]).1 (Encode [0]).2.1 (Encode [0]).2.2 =
      some ⟨.done [] none, (Encode [0]).1, (Encode [0]).2.1,
        (Encode [0]).2.2⟩ ∧
    ([] : List Nat) ≠ [0] := by
  constructor
  · decide
  · decide

/-- C5: the size-mismatch claim fails on the code.  The precondition
test is `len(block1) != len(block2) && len(block2) != len(block3)`
(`&&` instead of `||`), so a third block one byte longer than the
other two slips through: `Decode` succeeds with a payload and reports
the long block broken instead of failing with the size error. -/
theorem c5_size_mismatch_code_bug :
    (Encode []).1.length ≠ ((Encode []).2.2 ++ [0]).length ∧
    decodeOut (Encode []).1 (Encode []).2.1 ((Encode []).2.2 ++ [0]) =
      some (.done [] (some ((Encode []).2.2 ++ [0]))) := by
  constructor
  · decide
  · decide

/-- C7: the block-length formula of the claim fails on the code.  For
the 2-byte payload the blocks are 15 bytes long, not
`ceil(2/2) + (1+8) + 4 = 14`: the extra byte is added when `alen` is
odd, not when the payload length is odd. -/
theorem c7_length_counterexample :
    (Encode [0, 0]).1.length ≠ ([0, 0].length + 1) / 2 + (1 + 8) + 4 := by
  decide

/-- C7 (amended): all three blocks of one `Encode` call have the same
total length, namely `len/2 + (len/2 mod 2) + (1+8) + 4`. -/
theorem c7_block_lengths (d : List Nat) :
    (Encode d).1.length = d.length / 2 + d.length / 2 % 2 + (1 + 8) + 4 ∧
    (Encode d).2.1.length = d.length / 2 + d.length / 2 % 2 + (1 + 8) + 4 ∧
    (Encode d).2.2.length = d.length / 2 + d.length / 2 % 2 + (1 + 8) + 4 := by
  have hb := blen_char d
  have h1 : (Encode d).1.length = blocklen d := encA_length d
  have h2 : (Encode d).2.1.length = blocklen d := encB_length d
  have h3 : (Encode d).2.2.length = blocklen d := encX_length d
  unfold blocklen at h1 h2 h3
  exact ⟨by omega, by omega, by omega⟩

/-- C8: the split claim fails on the code.  For the 5-byte payload
`[1,2,3,4,5]`, block B declares a 2-byte payload and stores only
`[3,4]` — the remainder after the split point is 3 bytes, so the last
byte is dropped, the two slice lengths sum to 4, and decoding loses
data. -/
theorem c8_split_code_bug :
    buint64 (subslice (Encode [1, 2, 3, 4, 5]).2.1 1 9) = 2 ∧
    subslice (Encode [1, 2, 3, 4, 5]).2.1 9 11 = [3, 4] ∧
    decodeOut (Encode [1, 2, 3, 4, 5]).1 (Encode [1, 2, 3, 4, 5]).2.1
      (Encode [1, 2, 3, 4, 5]).2.2 = some (.done [1, 2, 3, 4] none) := by
  refine ⟨by decide, by decide, by decide⟩

/-- C9: the claim that `validate` returns the header fields regardless
of the checksum outcome fails on the code.  On a checksum mismatch the
source returns `0, 0, false`, discarding the order byte (here 5) and
the declared length (here 7) it could have read from the header. -/
theorem c9_header_counterexample :
    validate (5 :: (uint64b 7 ++ [0, 0, 0, 0])) = some (0, 0, false) ∧
    (5 :: (uint64b 7 ++ [0, 0, 0, 0])).headD 0 = 5 ∧
    buint64 (subslice (5 :: (uint64b 7 ++ [0, 0, 0, 0])) 1 9) = 7 ∧
    ((0 : Nat), (0 : Nat), false) ≠ ((5 : Nat), (7 : Nat), false) := by
  refine ⟨by decide, by decide, by decide, by decide⟩

/-- C9 (amended): `validate` returns the order byte and declared
length (with `true`) only when the recomputed checksum matches the
stored one; on mismatch it returns `(0, 0, false)`. -/
theorem c9_validate_header (block : List Nat) (h9 : 9 ≤ block.length) :
    validate block =
      if buint32 (subslice block (block.length - 4) block.length) ≠
          chcksum (subslice block 0 (block.length - 4)) then
        some (0, 0, false)
      else some (block.headD 0, buint64 (subslice block 1 9), true) := by
  unfold validate
  rw [if_pos (by omega : 4 ≤ block.length)]
  by_cases hm : buint32 (subslice block (block.length - 4) block.length) ≠
      chcksum (subslice block 0 (block.length - 4))
  · rw [if_pos hm, if_pos hm]
  · rw [if_neg hm, if_neg hm, if_pos h9]

/-- Witness for C9 (amended) at the all-zero 13-byte block. -/
theorem c9_validate_header_witness :
    validate (List.replicate 13 0) =
      if buint32 (subslice (List.replicate 13 0)
            ((List.replicate (13 : Nat) (0 : Nat)).length - 4)
            (List.replicate (13 : Nat) (0 : Nat)).length) ≠
          chcksum (subslice (List.replicate 13 0) 0
            ((List.replicate (13 : Nat) (0 : Nat)).length - 4)) then
        some (0, 0, false)
      else some ((List.replicate (13 : Nat) (0 : Nat)).headD 0,
        buint64 (subslice (List.replicate 13 0) 1 9), true) :=
  c9_validate_header (List.replicate 13 0) (by decide)

/-- C10: `Decode` on three equal-length buffers shorter than 4 bytes
does not return an error value: `validate` slices `block[len-4:len]`
out of bounds and the call panics (modelled as `none`). -/
theorem c10_short_buffers_panic (b1 b2 b3 : List Nat)
    (h12 : b1.length = b2.length) (h23 : b2.length = b3.length)
    (h4 : b1.length < 4) : Decode b1 b2 b3 = none := by
  unfold Decode
  rw [if_neg (hsz_same _ _ _ h12), validate_short _ h4]

/-- Witness for C10 at three 1-byte buffers. -/
theorem c10_short_buffers_panic_witness :
    ([0] : List Nat).length < 4 ∧ Decode [0] [0] [0] = none :=
  ⟨by decide, c10_short_buffers_panic [0] [0] [0] rfl rfl (by decide)⟩

/-- Block A of `Encode [0,2,0,0,0,0,0,0]` with its payload bytes at
offsets 9, 10, 11 changed from `0, 2, 0` to `1, 0, 1` (four flipped
bits).  The byte deltas `+1, -2, +1` cancel in both adler32 state
components, so the corrupted block still matches its stored checksum. -/
def c2corrupt : List Nat :=
  (encA [0, 2, 0, 0, 0, 0, 0, 0]).take 9 ++ [1, 0, 1] ++
    (encA [0, 2, 0, 0, 0, 0, 0, 0]).drop 12

/-- C2: the bit-flip tolerance claim fails on the code.  `c2corrupt`
has the same length as block A of `Encode [0,2,0,0,0,0,0,0]` and
differs from it only in flipped bits, yet `Decode` on the three blocks
returns the wrong payload `[1,0,1,0,0,0,0,0]` with no broken block:
the adler32 checksum does not detect this corruption. -/
theorem c2_bitflip_counterexample :
    c2corrupt.length = (Encode [0, 2, 0, 0, 0, 0, 0, 0]).1.length ∧
    c2corrupt ≠ (Encode [0, 2, 0, 0, 0, 0, 0, 0]).1 ∧
    decodeOut c2corrupt (Encode [0, 2, 0, 0, 0, 0, 0, 0]).2.1
      (Encode [0, 2, 0, 0, 0, 0, 0, 0]).2.2 =
      some (.done [1, 0, 1, 0, 0, 0, 0, 0] none) ∧
    ([1, 0, 1, 0, 0, 0, 0, 0] : List Nat) ≠ [0, 2, 0, 0, 0, 0, 0, 0] := by
  refine ⟨by decide, by decide, by decide, by decide⟩

/-- C2 (amended): for payloads whose length is 0 or 3 mod 4 (the
lengths the codec round-trips, see C1) and any single block replaced by
a same-length buffer that fails checksum validation — which includes
every all-zero buffer, see `allzero_fails_validation` — `Decode`
returns exactly the payload and the altered buffer as broken,
whichever of the three slots was altered. -/
theorem c2_single_block_alteration (d c : List Nat)
    (hn : d.length < 18446744073709551616)
    (h4 : d.length % 4 = 0 ∨ d.length % 4 = 3)
    (hlen : c.length = (Encode d).1.length)
    (hbad : validate c = some (0, 0, false)) :
    decodeOut c (Encode d).2.1 (Encode d).2.2 = some (.done d (some c)) ∧
    decodeOut (Encode d).1 c (Encode d).2.2 = some (.done d (some c)) ∧
    decodeOut (Encode d).1 (Encode d).2.1 c = some (.done d (some c)) := by
  have hlen2 : c.length = blocklen d := by
    rw [hlen]
    exact encA_length d
  refine ⟨?_, ?_, ?_⟩
  · show (Decode c (encB d) (encX d)).map DecRes.out = _
    rw [decode_enc_badA d c hn hlen2 hbad, pay_eq d h4]
    rfl
  · show (Decode (encA d) c (encX d)).map DecRes.out = _
    rw [decode_enc_badB d c hn hlen2 hbad, pay_eq d h4]
    rfl
  · show (Decode (encA d) (encB d) c).map DecRes.out = _
    rw [decode_enc_badX d c hn hlen2 hbad, pay_eq d h4]
    rfl

/-- Witness for C2 (amended): payload `[7,7,7,7]` with each block in
turn replaced by the all-zero 15-byte buffer. -/
theorem c2_single_block_alteration_witness :
    (decodeOut (List.replicate 15 0) (Encode [7, 7, 7, 7]).2.1
        (Encode [7, 7, 7, 7]).2.2 =
      some (.done [7, 7, 7, 7] (some (List.replicate 15 0)))) ∧
    (decodeOut (Encode [7, 7, 7, 7]).1 (List.replicate 15 0)
        (Encode [7, 7, 7, 7]).2.2 =
      some (.done [7, 7, 7, 7] (some (List.replicate 15 0)))) ∧
    (decodeOut (Encode [7, 7, 7, 7]).1 (Encode [7, 7, 7, 7]).2.1
        (List.replicate 15 0) =
      some (.done [7, 7, 7, 7] (some (List.replicate 15 0)))) :=
  c2_single_block_alteration [7, 7, 7, 7] (List.replicate 15 0)
    (by decide) (by decide) (by decide) (by decide)

/-- C3: the claim that `Decode` is order-independent on arbitrary
buffers fails on the code.  With blocks A and B of `Encode []` and a
17-byte zero buffer, the order `(A, B, junk)` passes the (buggy) size
check and decodes successfully, while `(A, junk, B)` fails with the
size-mismatch error: the outcome depends on the input order. -/
theorem c3_order_counterexample :
    decodeOut (Encode []).1 (Encode []).2.1 (List.replicate 17 0) =
      some (.done [] (some (List.replicate 17 0))) ∧
    decodeOut (Encode []).1 (List.replicate 17 0) (Encode []).2.1 =
      some .sizeMismatch := by
  refine ⟨by decide, by decide⟩

/-- C3 (amended): on the three blocks of one `Encode` call, all six
input orders yield the same successful outcome: the same payload, no
broken block, and no error. -/
theorem c3_perm_invariance (d : List Nat)
    (hn : d.length < 18446744073709551616) :
    decodeOut (Encode d).1 (Encode d).2.1 (Encode d).2.2 =
      some (.done (pay d) none) ∧
    decodeOut (Encode d).1 (Encode d).2.2 (Encode d).2.1 =
      some (.done (pay d) none) ∧
    decodeOut (Encode d).2.1 (Encode d).1 (Encode d).2.2 =
      some (.done (pay d) none) ∧
    decodeOut (Encode d).2.1 (Encode d).2.2 (Encode d).1 =
      some (.done (pay d) none) ∧
    decodeOut (Encode d).2.2 (Encode d).1 (Encode d).2.1 =
      some (.done (pay d) none) ∧
    decodeOut (Encode d).2.2 (Encode d).2.1 (Encode d).1 =
      some (.done (pay d) none) := by
  refine ⟨?_, ?_, ?_, ?_, ?_, ?_⟩
  · show (Decode (encA d) (encB d) (encX d)).map DecRes.out = _
    rw [decode_enc_abx d hn]
    rfl
  · show (Decode (encA d) (encX d) (encB d)).map DecRes.out = _
    rw [decode_enc_axb d hn]
    rfl
  · show (Decode (encB d) (encA d) (encX d)).map DecRes.out = _
    rw [decode_enc_bax d hn]
    rfl
  · show (Decode (encB d) (encX d) (encA d)).map DecRes.out = _
    rw [decode_enc_bxa d hn]
    rfl
  · show (Decode (encX d) (encA d) (encB d)).map DecRes.out = _
    rw [decode_enc_xab d hn]
    rfl
  · show (Decode (encX d) (encB d) (encA d)).map DecRes.out = _
    rw [decode_enc_xba d hn]
    rfl

/-- Witness for C3 (amended) at the payload `[1,2,3]`. -/
theorem c3_perm_invariance_witness :
    decodeOut (Encode [1, 2, 3]).1 (Encode [1, 2, 3]).2.1
        (Encode [1, 2, 3]).2.2 = some (.done (pay [1, 2, 3]) none) ∧
    decodeOut (Encode [1, 2, 3]).1 (Encode [1, 2, 3]).2.2
        (Encode [1, 2, 3]).2.1 = some (.done (pay [1, 2, 3]) none) ∧
    decodeOut (Encode [1, 2, 3]).2.1 (Encode [1, 2, 3]).1
        (Encode [1, 2, 3]).2.2 = some (.done (pay [1, 2, 3]) none) ∧
    decodeOut (Encode [1, 2, 3]).2.1 (Encode [1, 2, 3]).2.2
        (Encode [1, 2, 3]).1 = some (.done (pay [1, 2, 3]) none) ∧
    decodeOut (Encode [1, 2, 3]).2.2 (Encode [1, 2, 3]).1
        (Encode [1, 2, 3]).2.1 = some (.done (pay [1, 2, 3]) none) ∧
    decodeOut (Encode [1, 2, 3]).2.2 (Encode [1, 2, 3]).2.1
        (Encode [1, 2, 3]).1 = some (.done (pay [1, 2, 3]) none) :=
  c3_perm_invariance [1, 2, 3] (by decide)

/-- C4: as stated, the claim fails on the code for very short buffers:
three equal-length 2-byte buffers have no block passing validation
(good count 0), yet `Decode` panics on the out-of-bounds checksum
slice instead of returning an error. -/
theorem c4_short_counterexample :
    validate [0, 0] = none ∧ Decode [0, 0] [0, 0] [0, 0] = none := by
  refine ⟨by decide, by decide⟩

/-- C4 (amended): for three equal-length buffers on which `validate`
completes, if at most one of the three is good then `Decode` returns
one of the reconstruction-impossible errors with no payload and the
buffers untouched. -/
theorem c4_le_one_good_errors (b1 b2 b3 : List Nat)
    (p1 l1 p2 l2 p3 l3 : Nat) (g1 g2 g3 : Bool)
    (h12 : b1.length = b2.length) (h23 : b2.length = b3.length)
    (hv1 : validate b1 = some (p1, l1, g1))
    (hv2 : validate b2 = some (p2, l2, g2))
    (hv3 : validate b3 = some (p3, l3, g3))
    (hcount : (if g1 then 1 else 0) + (if g2 then 1 else 0) +
      (if g3 then 1 else 0) ≤ 1) :
    ∃ e, (e = DecOut.badAB ∨ e = DecOut.badAX ∨ e = DecOut.badBX) ∧
      Decode b1 b2 b3 = some ⟨e, b1, b2, b3⟩ := by
  rcases decode_le_one_good b1 b2 b3 p1 l1 p2 l2 p3 l3 g1 g2 g3 h12
      hv1 hv2 hv3 hcount with h | h | h
  · exact ⟨_, Or.inl rfl, h⟩
  · exact ⟨_, Or.inr (Or.inl rfl), h⟩
  · exact ⟨_, Or.inr (Or.inr rfl), h⟩

/-- Witness for C4 (amended) at three all-zero 13-byte buffers. -/
theorem c4_le_one_good_errors_witness :
    ∃ e, (e = DecOut.badAB ∨ e = DecOut.badAX ∨ e = DecOut.badBX) ∧
      Decode (List.replicate 13 0) (List.replicate 13 0)
          (List.replicate 13 0) =
        some ⟨e, List.replicate 13 0, List.replicate 13 0,
          List.replicate 13 0⟩ :=
  c4_le_one_good_errors _ _ _ 0 0 0 0 0 0 false false false rfl rfl
    (by decide) (by decide) (by decide) (by decide)

/-- C6: the purity claim fails on the code.  For the payload
`[1,2,3,4]` the final `append(a, b...)` of the fast path fits in block
A spare capacity, so Go writes the B payload into the caller buffer:
after `Decode` returns, the first input buffer no longer holds its
original bytes. -/
theorem c6_mutation_counterexample :
    (Decode (Encode [1, 2, 3, 4]).1 (Encode [1, 2, 3, 4]).2.1
        (Encode [1, 2, 3, 4]).2.2).map DecRes.post1 ≠
      some (Encode [1, 2, 3, 4]).1 := by
  decide

/-- C6 (amended): when `floor(len(p)/2) > 4` (so the appended B payload
does not fit block A spare capacity and Go allocates a fresh array),
`Decode` on the blocks of `Encode p` leaves all three input buffers
byte-for-byte unchanged; the result itself is a pure function of the
input bytes. -/
theorem c6_no_mutation_large (d : List Nat)
    (hn : d.length < 18446744073709551616) (hbig : 4 < d.length / 2) :
    Decode (Encode d).1 (Encode d).2.1 (Encode d).2.2 =
      some ⟨.done (pay d) none, (Encode d).1, (Encode d).2.1,
        (Encode d).2.2⟩ := by
  show Decode (encA d) (encB d) (encX d) = _
  rw [decode_enc_abx d hn, postA_of_gt d (by unfold alen; omega)]
  rfl

/-- Witness for C6 (amended) at a 12-byte payload. -/
theorem c6_no_mutation_large_witness :
    Decode (Encode (List.replicate 12 0)).1
        (Encode (List.replicate 12 0)).2.1
        (Encode (List.replicate 12 0)).2.2 =
      some ⟨.done (pay (List.replicate 12 0)) none,
        (Encode (List.replicate 12 0)).1,
        (Encode (List.replicate 12 0)).2.1,
        (Encode (List.replicate 12 0)).2.2⟩ :=
  c6_no_mutation_large (List.replicate 12 0) (by decide) (by decide)

end Erasure
